import Mathlib

/-!
Verification of the ClipDeck synchronization core.

This file gives a shallow embedding of the two ClipDeck processes:

* the session side (`ClipDeck_CS/clipdeck_cs.py`): window offsets, the scroll
  handler, the config handshake handler, clip triggering and the 32-cell
  snapshot classification (`_prepare_and_send_clip_info`);
* the hardware side (`clipdeck.py`): per-window state records, the OSC message
  handlers, the offline monitor tick, the press-flash and track-stopped timed
  restores, and the aggregator-level routing by display order.

Conventions of the embedding:

* Python ints are `Int` (or `Nat` where the source only ever produces
  non-negative values), Python floats are `ℚ` (exact arithmetic; the float
  values occurring here — playback fractions, timestamps — are modelled
  exactly), Python truthiness is made explicit.
* Side effects become explicit: handlers take a state and return the new
  state together with the list of messages sent / render calls attempted.
* Image composition (PIL) and the raw transport are external collaborators;
  a render call is recorded as a `RenderCall` value (key, label, rgb,
  progress argument, background argument, flash flag) instead of drawing.
-/

namespace ClipDeck

/-! ## Python primitives -/

/-- Truncation of a rational toward zero: the semantics of Python `int(x)`
on a float value. -/
def pyInt (q : ℚ) : Int := q.num.tdiv q.den

/-- Parse a decimal digit string into a `Nat`; `none` when empty or a
non-digit occurs.  Models Python `int(s)` on the digit strings this wire
carries (the senders only ever emit optionally-signed decimal literals). -/
def parseNatChars (cs : List Char) : Option Nat :=
  if cs.isEmpty then none
  else cs.foldl (fun acc c => acc.bind fun a =>
    if c.isDigit then some (a * 10 + (c.toNat - 48)) else none) (some 0)

/-- Parse an optionally-signed decimal integer literal.  Models Python
`int(s)` / `float(s)` on the integer literals exchanged by the two
processes; any other string raises `ValueError` in Python, which is the
`none` case here. -/
def parseIntChars : List Char → Option Int
  | '-' :: rest => (parseNatChars rest).map (fun n => -(n : Int))
  | cs => (parseNatChars cs).map (fun n => (n : Int))

def parseIntStr (s : String) : Option Int := parseIntChars s.data

/-- List access with a Python-style non-negative index.  (Python also wraps
negative indices; the scroll handler keeps the window offsets non-negative
via `max 0 _`, so wrapped access never occurs in the modelled runs and a
negative index is simply out of range here.) -/
def listGetInt {α : Type} (l : List α) (i : Int) : Option α :=
  if 0 ≤ i then l.get? i.toNat else none

/-! ## Session read API (the Live song, an external collaborator) -/

/-- One clip, as read through the session API. -/
structure ClipS where
  name : String
  color : Int
  is_playing : Bool
  is_triggered : Bool
  playing_position : ℚ
  length : ℚ
deriving DecidableEq

/-- One clip slot; `clip?` is `some` exactly when `has_clip` is true. -/
structure ClipSlotS where
  clip? : Option ClipS
deriving DecidableEq

structure TrackS where
  clip_slots : List ClipSlotS
deriving DecidableEq

/-- The session: a list of tracks and a scene count (`len(self.song.scenes)`;
only the count of scenes is ever read). -/
structure SongS where
  tracks : List TrackS
  scenes : Nat
deriving DecidableEq

/-- Whether any slot of a track holds a clip that is playing or triggered:
`any(slot.has_clip and (slot.clip.is_playing or slot.clip.is_triggered)
for slot in track.clip_slots)`. -/
def track_is_playing (tr : TrackS) : Bool :=
  tr.clip_slots.any fun slot =>
    match slot.clip? with
    | some c => c.is_playing || c.is_triggered
    | none => false

/-- The per-column playing flag of `_prepare_and_send_clip_info`: computed
for the absolute track index, `False` when the track does not exist. -/
def trackPlayingAt (song : SongS) (t : Int) : Bool :=
  match listGetInt song.tracks t with
  | some tr => track_is_playing tr
  | none => false

def slotAt (song : SongS) (t s : Int) : Option ClipSlotS :=
  (listGetInt song.tracks t).bind fun tr => listGetInt tr.clip_slots s

/-! ## Snapshot classification (session side, `_prepare_and_send_clip_info`) -/

/-- One cell of the 32-cell snapshot.  On the wire it is encoded as the
string `label ++ "|" ++ color ++ "|" ++ code`. -/
structure Cell where
  label : String
  color : Int
  code : Int
deriving DecidableEq

/-- The playing-progress code:
`max(0, min(int(raw_progress * 16), 15)) + 1` with
`raw_progress = position / length`. -/
def progress_val (pos len : ℚ) : Int :=
  max 0 (min (pyInt (pos / len * 16)) 15) + 1

/-- Classification of one visible slot at absolute indices `(t, s)`,
translated from the body of the snapshot loop.  The final `none` case
(an in-range index whose slot lookup still fails) cannot occur for a
well-formed song, where every track has exactly `scenes` clip slots;
in Python it would raise and abort the whole snapshot. -/
def classifySlot (song : SongS) (trkPlaying : Bool) (t s : Int) : Cell :=
  if (song.tracks.length : Int) ≤ t ∨ (song.scenes : Int) ≤ s then
    { label := "X", color := 3276800, code := -4 }
  else
    match slotAt song t s with
    | some slot =>
      match slot.clip? with
      | some clip =>
        if clip.is_playing then
          { label := clip.name, color := clip.color,
            code := progress_val clip.playing_position clip.length }
        else if clip.is_triggered then
          { label := clip.name, color := clip.color, code := -1 }
        else if trkPlaying then
          { label := clip.name, color := clip.color, code := -2 }
        else
          { label := clip.name, color := clip.color, code := -3 }
      | none =>
        if !trkPlaying then { label := " ", color := 0, code := -3 }
        else { label := " ", color := 0, code := -2 }
    | none => { label := " ", color := 0, code := -3 }

/-- The snapshot: `none` when no message is sent (config not yet received,
or the horizontal offset is entirely unreachable), otherwise the 32 cells
in scene-major order (scene outer, track inner). -/
def prepare_and_send_clip_info (config_received : Bool) (h v : Int)
    (song : SongS) : Option (List Cell) :=
  if config_received = false then none
  else if (song.tracks.length : Int) ≤ h then none
  else some ((List.range 4).flatMap fun (scene_index : Nat) =>
    (List.range 8).map fun (track_index : Nat) =>
      classifySlot song (trackPlayingAt song (h + (track_index : Int)))
        (h + (track_index : Int)) (v + (scene_index : Int)))

/-! ## Session-side state and the scroll / config / trigger handlers -/

/-- The mutable attributes of the `ClipDeck` control surface that the
handshake, scroll and trigger handlers read and write. -/
structure CSState where
  display_order : Int
  h_offset : Int
  v_offset : Int
  initial_h_offset : Int
  config_received : Bool
  debug_mode : Bool
  last_applied_h_offset : Int
  last_applied_v_offset : Int
  structural_mismatch : Bool
deriving DecidableEq

/-- Messages the session side emits (`_osc_send` targets). -/
inductive SMsg where
  | ablonline (order : Int)
  | clip_info (order : Int) (cells : List Cell)
  | structural_mismatch (order : Int) (showFlag : Bool)
  | document_closing (order : Int)
  | track_stopped (order : Int) (track_index : Nat) (was_playing : Bool)
deriving DecidableEq

inductive ScrollDir where
  | up | down | left | right | reset
deriving DecidableEq

/-- One `/scroll` command.  On the wire the direction is a string with an
optional `"-fast"` suffix; `_handle_scroll` strips the suffix and uses step
4 instead of 1, which the `fast` flag models. -/
structure Scroll where
  dir : ScrollDir
  fast : Bool
deriving DecidableEq

/-- Translation of `_handle_scroll`.  The session ring update
(`set_offsets` + `_last_applied_*`) happens only when an offset actually
changed. -/
def handle_scroll (song : SongS) (c : Scroll) (st : CSState) : CSState :=
  let step : Int := if c.fast then 4 else 1
  let st' : CSState :=
    match c.dir with
    | .up => { st with v_offset := max 0 (st.v_offset - step) }
    | .down =>
      let max_offset : Int := max 0 ((song.scenes : Int) - 4)
      { st with v_offset := min max_offset (st.v_offset + step) }
    | .left => { st with h_offset := max 0 (st.h_offset - step) }
    | .right =>
      let max_h_offset : Int := max 0 ((song.tracks.length : Int) - 8)
      { st with h_offset := min max_h_offset (st.h_offset + step) }
    | .reset => { st with h_offset := st.initial_h_offset }
  if st'.h_offset ≠ st.h_offset ∨ st'.v_offset ≠ st.v_offset then
    { st' with last_applied_h_offset := st'.h_offset,
               last_applied_v_offset := st'.v_offset }
  else st'

/-- Translation of `_osc_config_handler`.  A `/config` message carries
`display_order, h_offset[, debug_mode]` as ints (messages whose arguments
fail `int()` leave the state unchanged via the bare `except`, which the
typed argument list factors out).  Returns the new state and the messages
sent. -/
def osc_config_handler (song : SongS) (st : CSState) (args : List Int) :
    CSState × List SMsg :=
  if 2 ≤ args.length then
    let display_order := args.getD 0 0
    let h_offset := args.getD 1 0
    let debug_mode := if 3 ≤ args.length then args.getD 2 0 ≠ 0 else false
    if display_order = st.display_order then
      let first_config := !st.config_received
      let st1 := if first_config then
          { st with h_offset := h_offset, initial_h_offset := h_offset }
        else st
      let st2 := { st1 with config_received := true, debug_mode := debug_mode }
      if first_config ∧ (st2.h_offset ≠ st2.last_applied_h_offset ∨
          st2.v_offset ≠ st2.last_applied_v_offset) then
        let st3 := { st2 with last_applied_h_offset := st2.h_offset,
                              last_applied_v_offset := st2.v_offset }
        let snap := prepare_and_send_clip_info st3.config_received
          st3.h_offset st3.v_offset song
        let msgs := (match snap with
          | some cells => [SMsg.clip_info st3.display_order cells]
          | none => []) ++ [SMsg.ablonline st3.display_order]
        (st3, msgs)
      else
        (st2, [SMsg.ablonline st2.display_order])
    else (st, [])
  else (st, [])

/-- The absolute slot a `/trigger_clip` command addresses:
`track_index = h_offset + track_offset`, `scene_index = v_offset +
scene_offset`. -/
def trigger_resolve (h v : Int) (track_offset scene_offset : Nat) : Int × Int :=
  (h + (track_offset : Int), v + (scene_offset : Int))

inductive TriggerAction where
  | fire (t s : Int)
  | stopAllClips (t : Int) (was_playing : Bool)
deriving DecidableEq

/-- Translation of the decision part of `_handle_trigger_clip`: which slot
is addressed and whether it is fired or the track is stopped.  Out-of-range
targets do nothing. -/
def handle_trigger_clip (song : SongS) (st : CSState)
    (track_offset scene_offset : Nat) : Option TriggerAction :=
  let ti := (trigger_resolve st.h_offset st.v_offset track_offset scene_offset).1
  let si := (trigger_resolve st.h_offset st.v_offset track_offset scene_offset).2
  if 0 ≤ ti ∧ ti < (song.tracks.length : Int) ∧ 0 ≤ si ∧ si < (song.scenes : Int) then
    match slotAt song ti si with
    | some slot =>
      match slot.clip? with
      | some _ => some (.fire ti si)
      | none => some (.stopAllClips ti (trackPlayingAt song ti))
    | none => none
  else none

/-! ## Hardware-side key roles (`on_key_change`) -/

/-- The configured scroll layout (`scroll_mode` in `deck_config.json`). -/
inductive ScrollMode where
  | noScroll | vertical | both | bothReset
deriving DecidableEq

def KEY_BURGER : Nat := 31
def KEY_BRIGHTNESS : Nat := 23
def KEY_ARROW_RIGHT : Nat := 30
def KEY_ARROW_DOWN : Nat := 29
def KEY_ARROW_UP : Nat := 21
def KEY_ARROW_LEFT : Nat := 28

/-- The command a key press emits (or `noCmd` for the burger / brightness
keys, which are handled by the polling loop instead). -/
inductive KeyCmd where
  | scrollMsg (dir : String)
  | triggerClip (track_offset scene_offset : Nat)
  | noCmd
deriving DecidableEq

/-- Translation of `on_key_change`: which message a fresh press of `key`
sends, given the scroll layout and the menu-activation state. -/
def on_key_change (scroll_mode : ScrollMode) (menu_active : Bool) (key : Nat) :
    KeyCmd :=
  match scroll_mode with
  | .vertical =>
    if key = 30 then .scrollMsg "up"
    else if key = 31 then .scrollMsg "down"
    else .triggerClip (key % 8) (key / 8)
  | .both =>
    if menu_active ∧ key = KEY_ARROW_UP then .scrollMsg "up"
    else if menu_active ∧ key = KEY_ARROW_DOWN then .scrollMsg "down"
    else if menu_active ∧ key = KEY_ARROW_LEFT then .scrollMsg "left"
    else if menu_active ∧ key = KEY_ARROW_RIGHT then .scrollMsg "right"
    else if key = KEY_BURGER ∨ key = KEY_BRIGHTNESS then .noCmd
    else .triggerClip (key % 8) (key / 8)
  | .bothReset =>
    if menu_active ∧ key = KEY_ARROW_UP then .scrollMsg "up"
    else if menu_active ∧ key = KEY_ARROW_DOWN then .scrollMsg "down"
    else if menu_active ∧ key = KEY_ARROW_LEFT then .scrollMsg "reset"
    else if menu_active ∧ key = KEY_ARROW_RIGHT then .scrollMsg "right"
    else if key = KEY_BURGER ∨ key = KEY_BRIGHTNESS then .noCmd
    else .triggerClip (key % 8) (key / 8)
  | .noScroll => .triggerClip (key % 8) (key / 8)

/-- A key acts as a plain clip key when `on_key_change` falls through to the
clip-trigger branch (it is not consumed by a scroll / menu overlay role). -/
def isPlainKey (scroll_mode : ScrollMode) (menu_active : Bool) (key : Nat) :
    Bool :=
  match on_key_change scroll_mode menu_active key with
  | .triggerClip _ _ => true
  | _ => false

/-! ## Hardware-side per-window state and render calls -/

/-- A KeyCache entry: the last known `(label, color, state-code)` triple.
The state code is the parsed float, kept exactly as a rational. -/
abbrev Entry := String × Int × ℚ

/-- The key-state cache of one window: key index to entry. -/
abbrev Cache := Nat → Option Entry

def cacheSet (c : Cache) (i : Nat) (e : Entry) : Cache :=
  fun j => if j = i then some e else c j

/-- Conversion `ableton_color_to_rgb`: `(v >> 16 & 0xFF, v >> 8 & 0xFF,
v & 0xFF)`.  Colors on this wire are non-negative. -/
def ableton_color_to_rgb (v : Int) : Nat × Nat × Nat :=
  ((v.toNat >>> 16) % 256, (v.toNat >>> 8) % 256, v.toNat % 256)

/-- One attempted `update_key_image` call.  The image composition itself is
an external collaborator; what the core decides is the argument vector:
which key, which label, which rgb color, which `progress` argument (a
fraction in `[0, 1]`, or the sentinels `-1` / `-2`, or absent), which
background override and whether it is the flash fill. -/
structure RenderCall where
  key : Nat
  label : String
  rgb : Nat × Nat × Nat
  progress : Option ℚ
  background : Option (Nat × Nat × Nat)
  flash : Bool
deriving DecidableEq

/-- Per-window hardware state record, as created by `init_cs_state`. -/
structure HWState where
  key_states : Cache
  stopped_keys : List Nat
  last_ablonline : ℚ
  waiting_cleared : Bool
  structural_mismatch : Bool
  pressed_keys : List Nat
  flash_until : Nat → Option ℚ
  menu_active : Bool
  ableton_offline : Bool

/-- The fresh record `init_cs_state` installs for a display order. -/
def initHW : HWState where
  key_states := fun _ => none
  stopped_keys := []
  last_ablonline := 0
  waiting_cleared := false
  structural_mismatch := false
  pressed_keys := []
  flash_until := fun _ => none
  menu_active := false
  ableton_offline := true

/-! ## The `/clip_info` handler (hardware side) -/

/-- Split at the first `'|'`: the prefix and, when a pipe was found, the
remainder. -/
def breakPipe : List Char → List Char × Option (List Char)
  | [] => ([], none)
  | c :: cs =>
    if c = '|' then ([], some cs)
    else
      let r := breakPipe cs
      (c :: r.1, r.2)

/-- Python `s.split('|', 2)`: at most two splits, the rest stays joined. -/
def splitPipe2 (cs : List Char) : List (List Char) :=
  match breakPipe cs with
  | (a, none) => [a]
  | (a, some rest) =>
    match breakPipe rest with
    | (b, none) => [a, b]
    | (b, some rest2) => [a, b, rest2]

/-- Parse one wire cell `"label|color|code"` into an entry:
`(parts[0], int(parts[1]), float(parts[2]))`; `none` when the split does
not yield three parts or a numeric conversion raises `ValueError`. -/
def parseCell (s : String) : Option Entry :=
  match splitPipe2 s.data with
  | [a, b, c] =>
    match parseIntChars b, parseIntChars c with
    | some cv, some p => some (String.mk a, cv, (p : ℚ))
    | _, _ => none
  | _ => none

/-- Whether key `i` is inside its flash window: `i in flash_until and
current_time < flash_until[i]`. -/
def flashActive (flash_until : Nat → Option ℚ) (now : ℚ) (i : Nat) : Bool :=
  match flash_until i with
  | some fu => decide (now < fu)
  | none => false

/-- The render call the `/clip_info` handler issues for a changed cell,
by the parsed progress value. -/
def renderForCell (i : Nat) (e : Entry) : RenderCall :=
  let rgb := ableton_color_to_rgb e.2.1
  let p := e.2.2
  if 0 ≤ p then
    let fraction : ℚ := p / 16
    let fraction := if fraction = 0 then 1 else fraction
    { key := i, label := e.1, rgb := rgb, progress := some fraction,
      background := none, flash := false }
  else if p = -1 then
    { key := i, label := e.1, rgb := rgb, progress := some (-1),
      background := none, flash := false }
  else if p = -3 then
    { key := i, label := e.1, rgb := rgb, progress := some (-2),
      background := some (255, 0, 0), flash := false }
  else
    { key := i, label := e.1, rgb := rgb, progress := some (-2),
      background := none, flash := false }

/-- The body of one `/clip_info` loop iteration for an in-range index `i`
(the `i < 32` guard is applied by the loop): while pressed or flashing the
cache is still updated but nothing is rendered; otherwise a change of the
triple updates the cache and renders. -/
def clip_step (pressed : List Nat) (flash_until : Nat → Option ℚ) (now : ℚ)
    (c : Cache) (r : List RenderCall) (i : Nat) (info : String) :
    Cache × List RenderCall :=
  if pressed.contains i || flashActive flash_until now i then
    match parseCell info with
    | some e => (cacheSet c i e, r)
    | none => (c, r)
  else
    match parseCell info with
    | some e =>
      if c i = some e then (c, r)
      else (cacheSet c i e, r ++ [renderForCell i e])
    | none => (c, r)

/-- An OSC argument as delivered by the transport. -/
inductive OscVal where
  | i (n : Int)
  | f (q : ℚ)
  | s (str : String)
deriving DecidableEq

/-- Python `int(arg)`: ints pass through, floats truncate, strings must be
integer literals (anything else raises, the `none` case). -/
def pyIntOf : OscVal → Option Int
  | .i n => some n
  | .f q => some (pyInt q)
  | .s str => parseIntStr str

/-- The `enumerate(clip_data)` loop of the `/clip_info` handler.  A cell
argument that is not a string makes `info.split` raise `AttributeError`
(only `ValueError` is caught), which aborts the loop keeping the mutations
made so far: the Bool result records whether the handler raised. -/
def clip_cells_loop (pressed : List Nat) (flash_until : Nat → Option ℚ)
    (now : ℚ) : List (Nat × OscVal) → Cache → List RenderCall →
    Cache × List RenderCall × Bool
  | [], c, r => (c, r, false)
  | (i, v) :: rest, c, r =>
    if i < 32 then
      match v with
      | .s str =>
        let cr := clip_step pressed flash_until now c r i str
        clip_cells_loop pressed flash_until now rest cr.1 cr.2
      | _ => (c, r, true)
    else clip_cells_loop pressed flash_until now rest c r

/-- Translation of `osc_clip_info_handler` for one (configured) window:
updates the heartbeat, clears the offline flag, then walks the cells. -/
def osc_clip_info_win (now : ℚ) (cells : List OscVal) (s : HWState) :
    HWState × List RenderCall × Bool :=
  let s1 : HWState :=
    { s with last_ablonline := now, ableton_offline := false,
             waiting_cleared := if s.ableton_offline then true
                                else s.waiting_cleared }
  let out := clip_cells_loop s1.pressed_keys s1.flash_until now
    cells.enum s1.key_states []
  ({ s1 with key_states := out.1 }, out.2.1, out.2.2)

/-! ## The other hardware-side handlers -/

/-- Translation of `osc_ablonline_handler` for one window; `deck` is whether
a physical deck is attached to this order. -/
def osc_ablonline_win (now : ℚ) (deck : Bool) (s : HWState) :
    HWState × List RenderCall :=
  let s1 : HWState := { s with last_ablonline := now, ableton_offline := false }
  if s1.waiting_cleared = false ∧ deck then
    ({ s1 with waiting_cleared := true },
     [{ key := 0, label := "", rgb := (0, 0, 0), progress := none,
        background := none, flash := false }])
  else (s1, [])

/-- Translation of `osc_structural_mismatch_handler` for one window.  Note
that it does not touch `last_ablonline` or `ableton_offline`. -/
def osc_structural_mismatch_win (showFlag : Bool) (deck : Bool) (s : HWState) :
    HWState × List RenderCall :=
  let s1 : HWState := { s with structural_mismatch := showFlag }
  if deck then
    if showFlag then
      ({ s1 with waiting_cleared := true },
       [{ key := 0, label := "Wrong Channel Number", rgb := (255, 125, 0),
          progress := none, background := none, flash := false }])
    else
      ({ s1 with waiting_cleared := false },
       [{ key := 0, label := "", rgb := (0, 0, 0), progress := none,
          background := none, flash := false }])
  else (s1, [])

/-- Translation of `osc_document_closing_handler` for one window: clear all
keys, forget the cache, reset the heartbeat to the never-heard sentinel. -/
def osc_document_closing_win (deck : Bool) (s : HWState) :
    HWState × List RenderCall :=
  let renders := if deck then
      (List.range 32).map fun k =>
        { key := k, label := "", rgb := (0, 0, 0), progress := none,
          background := none, flash := false }
    else []
  ({ s with key_states := fun _ => none, last_ablonline := 0,
            waiting_cleared := false }, renders)

/-- The immediate effect of `osc_track_stopped_handler` for one window (the
scheduled restores are modelled by `run_track_stopped_restore` below): the
four keys of the track column are marked stopped and rendered with a red
background from the current cache.  The heartbeat and offline flag are not
touched. -/
def osc_track_stopped_win (track_index : Nat) (was_playing : Bool)
    (s : HWState) : HWState × List RenderCall :=
  let keys := (List.range 4).map fun scene_index => scene_index * 8 + track_index
  let renders := keys.map fun k =>
    match s.key_states k with
    | some (lt, cv, p) =>
      { key := k, label := lt, rgb := ableton_color_to_rgb cv,
        progress := some p, background := some (255, 0, 0), flash := false }
    | none =>
      { key := k, label := "", rgb := (0, 0, 0), progress := none,
        background := some (255, 0, 0), flash := false }
  ({ s with stopped_keys := s.stopped_keys ++ keys }, renders)

/-- One iteration of the offline monitor (`start_offline_monitor`) for one
window with an attached deck: edge-triggered transition to offline when the
heartbeat is stale. -/
def monitor_tick (now : ℚ) (s : HWState) : HWState × List RenderCall :=
  if 0 < s.last_ablonline ∧ 2 < now - s.last_ablonline then
    if s.ableton_offline = false then
      ({ s with ableton_offline := true, waiting_cleared := false },
       ((List.range 32).map fun k =>
         { key := k, label := "", rgb := (0, 0, 0), progress := none,
           background := none, flash := false }) ++
       [{ key := 0, label := "Ableton Offline", rgb := (255, 80, 0),
          progress := none, background := none, flash := false }])
    else (s, [])
  else (s, [])

/-! ## Event traces over one configured window -/

/-- The events one configured window (deck attached) observes: the five
inbound message kinds and the monitor tick, each with its arrival time. -/
inductive HWEvent where
  | clipInfo (t : ℚ) (cells : List OscVal)
  | ablonline (t : ℚ)
  | structuralMismatch (t : ℚ) (showFlag : Bool)
  | trackStopped (t : ℚ) (track_index : Nat) (was_playing : Bool)
  | documentClosing (t : ℚ)
  | tick (t : ℚ)
deriving DecidableEq

def eventTime : HWEvent → ℚ
  | .clipInfo t _ => t
  | .ablonline t => t
  | .structuralMismatch t _ => t
  | .trackStopped t _ _ => t
  | .documentClosing t => t
  | .tick t => t

def isDocClosing : HWEvent → Bool
  | .documentClosing _ => true
  | _ => false

/-- Step of one configured window under an event. -/
def hwStep (s : HWState) : HWEvent → HWState
  | .clipInfo t cells => (osc_clip_info_win t cells s).1
  | .ablonline t => (osc_ablonline_win t true s).1
  | .structuralMismatch _ showFlag => (osc_structural_mismatch_win showFlag true s).1
  | .trackStopped _ ti wp => (osc_track_stopped_win ti wp s).1
  | .documentClosing _ => (osc_document_closing_win true s).1
  | .tick t => (monitor_tick t s).1

def runHW (s : HWState) (es : List HWEvent) : HWState :=
  es.foldl hwStep s

/-- How one event updates the last-heartbeat time: only `/clip_info` and
`/ablonline` carry a heartbeat. -/
def hbUpd (acc : ℚ) : HWEvent → ℚ
  | .clipInfo t _ => t
  | .ablonline t => t
  | _ => acc

def lastHBFrom (hb : ℚ) (es : List HWEvent) : ℚ := es.foldl hbUpd hb

/-- The time of the last heartbeat-bearing message (`/clip_info` or
`/ablonline`) in a trace, `0` when none occurred. -/
def lastHB (es : List HWEvent) : ℚ := lastHBFrom 0 es

/-! ## Timed restores (press flash and track-stopped stop indicator) -/

/-- Translation of `restore_key_image`: restore a key from the cache the
state holds when the restore fires. -/
def restore_key_image (s : HWState) (key : Nat) : RenderCall :=
  match s.key_states key with
  | some (label, color_val, progress) =>
    let color := if color_val ≠ 0 then ableton_color_to_rgb color_val
                 else (0, 0, 0)
    if 0 ≤ progress then
      let fraction : ℚ := if 0 < progress then progress / 16 else 1
      { key := key, label := label, rgb := color, progress := some fraction,
        background := none, flash := false }
    else if progress = -1 then
      { key := key, label := label, rgb := color, progress := some (-1),
        background := none, flash := false }
    else if progress = -3 then
      { key := key, label := label, rgb := color, progress := some (-2),
        background := some (255, 0, 0), flash := false }
    else
      { key := key, label := label, rgb := color, progress := some (-2),
        background := none, flash := false }
  | none =>
    { key := key, label := "", rgb := (0, 0, 0), progress := none,
      background := none, flash := false }

/-- The press-flash restore scheduled at release: the timer body calls
`restore_key_image(d, k, s)` on the live state, so the render is computed
from the state as it is when the timer fires; the state at scheduling time
plays no role. -/
def run_flash_restore (sAtSchedule sAtFire : HWState) (key : Nat) :
    RenderCall :=
  restore_key_image sAtFire key

/-- The values `osc_track_stopped_handler` captures at scheduling time into
the timer lambda's default arguments: `(label_text, color, progress)` read
from the cache when the `/track_stopped` message is handled. -/
def track_stopped_capture (cache : Cache) (key : Nat) :
    String × (Nat × Nat × Nat) × Option ℚ :=
  match cache key with
  | some (lt, cv, p) => (lt, ableton_color_to_rgb cv, some p)
  | none => ("", (0, 0, 0), none)

/-- The track-stopped restore: the timer body renders with the captured
`lt`, `c`, `p` default arguments, so the render is computed from the cache
as it was at scheduling time; the cache at fire time plays no role. -/
def run_track_stopped_restore (cacheAtSchedule cacheAtFire : Cache)
    (key : Nat) : RenderCall :=
  let cap := track_stopped_capture cacheAtSchedule key
  { key := key, label := cap.1, rgb := cap.2.1, progress := cap.2.2,
    background := none, flash := false }

/-! ## Aggregator-level routing (DeckManager + module handlers) -/

/-- The aggregator's bookkeeping: one lazily created state record per
display order (`deck_states`) and the orders that have a physical deck
attached (`order_to_deck`). -/
structure AggState where
  deck_states : List (Int × HWState)
  order_to_deck : List Int

def lookupState (a : AggState) (o : Int) : Option HWState :=
  (a.deck_states.find? fun p => p.1 = o).map fun p => p.2

/-- Translation of `init_cs_state`: create the record if absent. -/
def init_cs_state (a : AggState) (o : Int) : AggState :=
  if (lookupState a o).isSome then a
  else { a with deck_states := a.deck_states ++ [(o, initHW)] }

/-- Translation of `get_cs_state`: ensure the record exists and read it. -/
def get_cs_state (a : AggState) (o : Int) : AggState × HWState :=
  let a1 := init_cs_state a o
  (a1, (lookupState a1 o).getD initHW)

def setState (a : AggState) (o : Int) (s : HWState) : AggState :=
  { a with deck_states := a.deck_states.map fun p =>
      if p.1 = o then (o, s) else p }

/-- Result of running one aggregator-level handler: the new aggregator
state, the render calls attempted, and whether the handler raised an
uncaught exception (contained by the OSC server loop, but a raise all the
same). -/
structure HandlerResult where
  agg : AggState
  renders : List RenderCall
  raised : Bool

/-- Aggregator-level `/clip_info`: fewer than two args returns silently; a
missing deck for the order returns before any state record is created. -/
def osc_clip_info_agg (now : ℚ) (args : List OscVal) (a : AggState) :
    HandlerResult :=
  if args.length < 2 then ⟨a, [], false⟩
  else
    match pyIntOf (args.getD 0 (.i 0)) with
    | none => ⟨a, [], true⟩
    | some o =>
      if a.order_to_deck.contains o = false then ⟨a, [], false⟩
      else
        let pair := get_cs_state a o
        let out := osc_clip_info_win now (args.drop 1) pair.2
        ⟨setState pair.1 o out.1, out.2.1, out.2.2⟩

/-- Aggregator-level `/ablonline`: `int(args[0]) if args else 0`, then the
state record is fetched (and created if missing) before the deck is even
looked up. -/
def osc_ablonline_agg (now : ℚ) (args : List OscVal) (a : AggState) :
    HandlerResult :=
  let o? := match args with
    | [] => some 0
    | v :: _ => pyIntOf v
  match o? with
  | none => ⟨a, [], true⟩
  | some o =>
    let pair := get_cs_state a o
    let deck := a.order_to_deck.contains o
    let out := osc_ablonline_win now deck pair.2
    ⟨setState pair.1 o out.1, out.2, false⟩

/-- Aggregator-level `/structural_mismatch`: fewer than two args returns
silently; otherwise the state record is fetched (created if missing). -/
def osc_structural_mismatch_agg (args : List OscVal) (a : AggState) :
    HandlerResult :=
  if args.length < 2 then ⟨a, [], false⟩
  else
    match pyIntOf (args.getD 0 (.i 0)) with
    | none => ⟨a, [], true⟩
    | some o =>
      let showFlag := match args.getD 1 (.i 0) with
        | .i n => n ≠ 0
        | .f q => q ≠ 0
        | .s str => str ≠ ""
      let pair := get_cs_state a o
      let deck := a.order_to_deck.contains o
      let out := osc_structural_mismatch_win showFlag deck pair.2
      ⟨setState pair.1 o out.1, out.2, false⟩

/-- Aggregator-level `/track_stopped`: fewer than three args returns
silently; the state record is fetched (created if missing) before the
`deck is None` early return. -/
def osc_track_stopped_agg (args : List OscVal) (a : AggState) :
    HandlerResult :=
  if args.length < 3 then ⟨a, [], false⟩
  else
    match pyIntOf (args.getD 0 (.i 0)), pyIntOf (args.getD 1 (.i 0)) with
    | some o, some ti =>
      let wp := match args.getD 2 (.i 0) with
        | .i n => n ≠ 0
        | .f q => q ≠ 0
        | .s str => str ≠ ""
      let pair := get_cs_state a o
      if a.order_to_deck.contains o = false then ⟨pair.1, [], false⟩
      else
        let out := osc_track_stopped_win ti.toNat wp pair.2
        ⟨setState pair.1 o out.1, out.2, false⟩
    | _, _ => ⟨a, [], true⟩

/-! ## Helper lemmas about the scroll handler -/

lemma handle_scroll_initial (song : SongS) (c : Scroll) (st : CSState) :
    (handle_scroll song c st).initial_h_offset = st.initial_h_offset := by
  cases c with
  | mk dir fast =>
    cases dir <;> simp only [handle_scroll] <;> split_ifs <;> rfl

lemma foldl_scroll_initial (song : SongS) (cmds : List Scroll) (st : CSState) :
    (cmds.foldl (fun s c => handle_scroll song c s) st).initial_h_offset =
      st.initial_h_offset := by
  induction cmds generalizing st with
  | nil => rfl
  | cons c cs ih => simp [List.foldl, ih, handle_scroll_initial]

lemma handle_scroll_reset (song : SongS) (f : Bool) (st : CSState) :
    (handle_scroll song ⟨.reset, f⟩ st).h_offset = st.initial_h_offset ∧
    (handle_scroll song ⟨.reset, f⟩ st).v_offset = st.v_offset := by
  simp only [handle_scroll]
  split_ifs <;> exact ⟨rfl, rfl⟩

/-- The single-step bounds invariant: valid offsets and a valid reset
target stay valid under one scroll command. -/
lemma handle_scroll_step_bounds (song : SongS) (c : Scroll) (st : CSState)
    (hh : 0 ≤ st.h_offset ∧ st.h_offset ≤ max 0 ((song.tracks.length : Int) - 8))
    (hv : 0 ≤ st.v_offset ∧ st.v_offset ≤ max 0 ((song.scenes : Int) - 4))
    (hi : 0 ≤ st.initial_h_offset ∧
      st.initial_h_offset ≤ max 0 ((song.tracks.length : Int) - 8)) :
    (0 ≤ (handle_scroll song c st).h_offset ∧
      (handle_scroll song c st).h_offset ≤ max 0 ((song.tracks.length : Int) - 8)) ∧
    (0 ≤ (handle_scroll song c st).v_offset ∧
      (handle_scroll song c st).v_offset ≤ max 0 ((song.scenes : Int) - 4)) := by
  obtain ⟨hh0, hh1⟩ := hh
  obtain ⟨hv0, hv1⟩ := hv
  obtain ⟨hi0, hi1⟩ := hi
  cases c with
  | mk dir fast =>
    cases dir <;> cases fast <;>
      simp only [handle_scroll] <;> split_ifs <;>
      refine ⟨⟨?_, ?_⟩, ?_, ?_⟩ <;> dsimp only <;> omega

/-- C1 (amended): the scroll-bounds invariant holds when the reset target
`initial_h_offset` itself lies within the horizontal range. -/
theorem scroll_offsets_stay_in_bounds (song : SongS) (st : CSState)
    (cmds : List Scroll)
    (hh : 0 ≤ st.h_offset ∧ st.h_offset ≤ max 0 ((song.tracks.length : Int) - 8))
    (hv : 0 ≤ st.v_offset ∧ st.v_offset ≤ max 0 ((song.scenes : Int) - 4))
    (hi : 0 ≤ st.initial_h_offset ∧
      st.initial_h_offset ≤ max 0 ((song.tracks.length : Int) - 8)) :
    (0 ≤ (cmds.foldl (fun s c => handle_scroll song c s) st).h_offset ∧
      (cmds.foldl (fun s c => handle_scroll song c s) st).h_offset ≤
        max 0 ((song.tracks.length : Int) - 8)) ∧
    (0 ≤ (cmds.foldl (fun s c => handle_scroll song c s) st).v_offset ∧
      (cmds.foldl (fun s c => handle_scroll song c s) st).v_offset ≤
        max 0 ((song.scenes : Int) - 4)) := by
  induction cmds generalizing st with
  | nil => exact ⟨hh, hv⟩
  | cons c cs ih =>
    have hstep := handle_scroll_step_bounds song c st hh hv hi
    have hinit : (handle_scroll song c st).initial_h_offset =
        st.initial_h_offset := handle_scroll_initial song c st
    exact ih (handle_scroll song c st) hstep.1 hstep.2 (hinit ▸ hi)

/-- C1 witness: a concrete valid start with fast-down, right and reset. -/
theorem scroll_offsets_stay_in_bounds_witness :
    let song : SongS := ⟨List.replicate 8 ⟨List.replicate 4 ⟨none⟩⟩, 12⟩
    let st : CSState := ⟨0, 0, 0, 0, true, false, -1, -1, false⟩
    let cmds : List Scroll :=
      [⟨.down, true⟩, ⟨.right, false⟩, ⟨.reset, false⟩, ⟨.up, false⟩]
    (0 ≤ (cmds.foldl (fun s c => handle_scroll song c s) st).h_offset ∧
      (cmds.foldl (fun s c => handle_scroll song c s) st).h_offset ≤
        max 0 ((song.tracks.length : Int) - 8)) ∧
    (0 ≤ (cmds.foldl (fun s c => handle_scroll song c s) st).v_offset ∧
      (cmds.foldl (fun s c => handle_scroll song c s) st).v_offset ≤
        max 0 ((song.scenes : Int) - 4)) :=
  scroll_offsets_stay_in_bounds _ _ _ (by decide) (by decide) (by decide)

/-- C1 counterexample: from the valid start `(hOffset, vOffset) = (0, 0)`
with `trackCount = 8`, `sceneCount = 4`, the single scroll `reset` drives
`hOffset` to `initial_h_offset = 8 > max 0 (trackCount - 8) = 0`: the claim
as stated (which does not constrain the reset target) is false. -/
theorem scroll_offsets_counterexample :
    let song : SongS := ⟨List.replicate 8 ⟨List.replicate 4 ⟨none⟩⟩, 4⟩
    let st : CSState := ⟨0, 0, 0, 8, true, false, 0, 0, false⟩
    (0 ≤ st.h_offset ∧ st.h_offset ≤ max 0 ((song.tracks.length : Int) - 8)) ∧
    (0 ≤ st.v_offset ∧ st.v_offset ≤ max 0 ((song.scenes : Int) - 4)) ∧
    ¬ ((handle_scroll song ⟨.reset, false⟩ st).h_offset ≤
        max 0 ((song.tracks.length : Int) - 8)) := by
  decide

/-- C2: for one process lifetime, the first accepted `/config` for the
matching order sets both `h_offset` and `initial_h_offset` to the carried
offset and replies `/ablonline`; every subsequently accepted `/config`
(from any state of the same lifetime, which has `config_received = true`)
changes only the debug flag, leaves `h_offset`, `initial_h_offset` and
`v_offset` untouched, and replies exactly `/ablonline`. -/
theorem config_first_sets_offset_then_only_debug (song : SongS)
    (st : CSState) (hOff : Int) (rest : List Int)
    (hfresh : st.config_received = false) :
    ((osc_config_handler song st (st.display_order :: hOff :: rest)).1.h_offset
        = hOff ∧
      (osc_config_handler song st
        (st.display_order :: hOff :: rest)).1.initial_h_offset = hOff ∧
      (osc_config_handler song st
        (st.display_order :: hOff :: rest)).1.config_received = true ∧
      SMsg.ablonline st.display_order ∈
        (osc_config_handler song st (st.display_order :: hOff :: rest)).2) ∧
    (∀ (st2 : CSState) (hOff2 : Int) (rest2 : List Int),
      st2.config_received = true →
      (osc_config_handler song st2 (st2.display_order :: hOff2 :: rest2)).1 =
        { st2 with debug_mode :=
          (osc_config_handler song st2
            (st2.display_order :: hOff2 :: rest2)).1.debug_mode } ∧
      (osc_config_handler song st2 (st2.display_order :: hOff2 :: rest2)).2 =
        [SMsg.ablonline st2.display_order]) := by
  constructor
  · simp only [osc_config_handler, hfresh, List.length_cons, List.getD]
    norm_num
    split_ifs <;> simp
  · intro st2 hOff2 rest2 hsub
    simp only [osc_config_handler, hsub, List.length_cons, List.getD]
    norm_num

/-- C2 witness. -/
theorem config_first_sets_offset_then_only_debug_witness :
    let song : SongS := ⟨List.replicate 8 ⟨List.replicate 4 ⟨none⟩⟩, 4⟩
    let st : CSState := ⟨1, 0, 0, 0, false, false, -1, -1, false⟩
    ((osc_config_handler song st (st.display_order :: 16 :: [1])).1.h_offset
        = 16 ∧
      (osc_config_handler song st
        (st.display_order :: 16 :: [1])).1.initial_h_offset = 16 ∧
      (osc_config_handler song st
        (st.display_order :: 16 :: [1])).1.config_received = true ∧
      SMsg.ablonline st.display_order ∈
        (osc_config_handler song st (st.display_order :: 16 :: [1])).2) ∧
    (∀ (st2 : CSState) (hOff2 : Int) (rest2 : List Int),
      st2.config_received = true →
      (osc_config_handler song st2 (st2.display_order :: hOff2 :: rest2)).1 =
        { st2 with debug_mode :=
          (osc_config_handler song st2
            (st2.display_order :: hOff2 :: rest2)).1.debug_mode } ∧
      (osc_config_handler song st2 (st2.display_order :: hOff2 :: rest2)).2 =
        [SMsg.ablonline st2.display_order]) :=
  config_first_sets_offset_then_only_debug _ _ 16 [1] (by decide)

/-- C7: after the first accepted config (which records the carried offset
as the reset target) and any sequence of non-reset scrolls, a `reset`
scroll restores `h_offset` to that recorded offset and leaves `v_offset`
unchanged. -/
theorem reset_restores_first_config_offset (song : SongS) (st0 : CSState)
    (hOff : Int) (rest : List Int) (cmds : List Scroll)
    (hfresh : st0.config_received = false)
    (hnores : ∀ c ∈ cmds, c.dir ≠ ScrollDir.reset) :
    (handle_scroll song ⟨.reset, false⟩
      (cmds.foldl (fun s c => handle_scroll song c s)
        (osc_config_handler song st0
          (st0.display_order :: hOff :: rest)).1)).h_offset = hOff ∧
    (handle_scroll song ⟨.reset, false⟩
      (cmds.foldl (fun s c => handle_scroll song c s)
        (osc_config_handler song st0
          (st0.display_order :: hOff :: rest)).1)).v_offset =
    (cmds.foldl (fun s c => handle_scroll song c s)
      (osc_config_handler song st0
        (st0.display_order :: hOff :: rest)).1).v_offset := by
  have hinit1 : (osc_config_handler song st0
      (st0.display_order :: hOff :: rest)).1.initial_h_offset = hOff := by
    simp only [osc_config_handler, hfresh, List.length_cons, List.getD]
    norm_num
    split_ifs <;> simp
  have hinit2 := foldl_scroll_initial song cmds
    (osc_config_handler song st0 (st0.display_order :: hOff :: rest)).1
  have hres := handle_scroll_reset song false
    (cmds.foldl (fun s c => handle_scroll song c s)
      (osc_config_handler song st0 (st0.display_order :: hOff :: rest)).1)
  exact ⟨hres.1.trans (hinit2.trans hinit1), hres.2⟩

/-- C7 witness. -/
theorem reset_restores_first_config_offset_witness :
    let song : SongS := ⟨List.replicate 16 ⟨List.replicate 8 ⟨none⟩⟩, 8⟩
    let st0 : CSState := ⟨0, 0, 0, 0, false, false, -1, -1, false⟩
    let cmds : List Scroll := [⟨.right, false⟩, ⟨.down, true⟩, ⟨.left, false⟩]
    (handle_scroll song ⟨.reset, false⟩
      (cmds.foldl (fun s c => handle_scroll song c s)
        (osc_config_handler song st0
          (st0.display_order :: 3 :: [])).1)).h_offset = 3 ∧
    (handle_scroll song ⟨.reset, false⟩
      (cmds.foldl (fun s c => handle_scroll song c s)
        (osc_config_handler song st0
          (st0.display_order :: 3 :: [])).1)).v_offset =
    (cmds.foldl (fun s c => handle_scroll song c s)
      (osc_config_handler song st0
        (st0.display_order :: 3 :: [])).1).v_offset :=
  reset_restores_first_config_offset _ _ 3 [] _ (by decide) (by decide)

/-! ## Snapshot classification lemmas -/

lemma pyInt_eq_floor (q : ℚ) (hq : 0 ≤ q) : pyInt q = ⌊q⌋ := by
  rw [pyInt, Rat.floor_def, Int.tdiv_eq_ediv]
  · exact Rat.num_nonneg.mpr hq
  · positivity

lemma progress_val_bounds (pos len : ℚ) :
    1 ≤ progress_val pos len ∧ progress_val pos len ≤ 16 := by
  unfold progress_val
  constructor <;> omega

/-- C5: for a playing clip with non-negative position and positive length,
the snapshot cell code is `clamp(floor((position/length) * 16), 0, 15) + 1`,
an integer in `1..16`; at `position/length = 1/2` it is `9`. -/
theorem playing_code_formula (song : SongS) (tp : Bool) (t s : Int)
    (slot : ClipSlotS) (clip : ClipS)
    (hint : t < (song.tracks.length : Int)) (hins : s < (song.scenes : Int))
    (hslot : slotAt song t s = some slot) (hclip : slot.clip? = some clip)
    (hplay : clip.is_playing = true)
    (hp : 0 ≤ clip.playing_position) (hl : 0 < clip.length) :
    (classifySlot song tp t s).code =
      max 0 (min ⌊clip.playing_position / clip.length * 16⌋ 15) + 1 ∧
    1 ≤ (classifySlot song tp t s).code ∧
    (classifySlot song tp t s).code ≤ 16 ∧
    (clip.playing_position / clip.length = 1 / 2 →
      (classifySlot song tp t s).code = 9) := by
  have hrange : ¬ ((song.tracks.length : Int) ≤ t ∨ (song.scenes : Int) ≤ s) := by
    omega
  have hcode : (classifySlot song tp t s).code =
      progress_val clip.playing_position clip.length := by
    simp [classifySlot, hrange, hslot, hclip, hplay]
  have hfloor : pyInt (clip.playing_position / clip.length * 16) =
      ⌊clip.playing_position / clip.length * 16⌋ :=
    pyInt_eq_floor _ (by positivity)
  refine ⟨?_, ?_, ?_, ?_⟩
  · rw [hcode, progress_val, hfloor]
  · rw [hcode]; exact (progress_val_bounds _ _).1
  · rw [hcode]; exact (progress_val_bounds _ _).2
  · intro hhalf
    rw [hcode, progress_val, hhalf]
    norm_num
    decide

/-- C5 witness: a playing clip at position 1 of length 2 reports code 9. -/
theorem playing_code_formula_witness :
    let clip : ClipS := ⟨"c", 5, true, false, 1, 2⟩
    let song : SongS := ⟨[⟨[⟨some clip⟩]⟩], 1⟩
    (classifySlot song false 0 0).code =
      max 0 (min ⌊clip.playing_position / clip.length * 16⌋ 15) + 1 ∧
    1 ≤ (classifySlot song false 0 0).code ∧
    (classifySlot song false 0 0).code ≤ 16 ∧
    (clip.playing_position / clip.length = 1 / 2 →
      (classifySlot song false 0 0).code = 9) :=
  playing_code_formula ⟨[⟨[⟨some ⟨"c", 5, true, false, 1, 2⟩⟩]⟩], 1⟩ false 0 0
    ⟨some ⟨"c", 5, true, false, 1, 2⟩⟩ ⟨"c", 5, true, false, 1, 2⟩
    (by decide) (by decide) (by decide) (by decide) (by decide)
    (by norm_num) (by norm_num)

/-! ## Cell-index arithmetic of the scene-major snapshot list -/

lemma range_flatMap_getD {α : Type} (f : Nat → Nat → α) (d : α) (i : Nat)
    (hi : i < 32) :
    ((List.range 4).flatMap fun s => (List.range 8).map (f s)).getD i d =
      f (i / 8) (i % 8) := by
  interval_cases i <;> rfl

lemma range_flatMap_length {α : Type} (f : Nat → Nat → α) :
    ((List.range 4).flatMap fun s => (List.range 8).map (f s)).length = 32 := by
  rfl

/-- Successful snapshots are exactly the scene-major classification list. -/
lemma prepare_eq_some (h v : Int) (song : SongS) (cells : List Cell)
    (hp : prepare_and_send_clip_info true h v song = some cells) :
    ¬ ((song.tracks.length : Int) ≤ h) ∧
    cells = ((List.range 4).flatMap fun (scene_index : Nat) =>
      (List.range 8).map fun (track_index : Nat) =>
        classifySlot song (trackPlayingAt song (h + (track_index : Int)))
          (h + (track_index : Int)) (v + (scene_index : Int))) := by
  unfold prepare_and_send_clip_info at hp
  simp only [if_neg (by simp : ¬ (true = false))] at hp
  split at hp
  · exact absurd hp (by simp)
  · exact ⟨by assumption, (Option.some.injEq _ _ ▸ hp.symm : _)⟩

/-- Every emitted code lies in `{-4, -3, -2, -1} ∪ [1, 16]`. -/
lemma classifySlot_code_mem (song : SongS) (tp : Bool) (t s : Int) :
    (classifySlot song tp t s).code = -4 ∨ (classifySlot song tp t s).code = -3 ∨
    (classifySlot song tp t s).code = -2 ∨ (classifySlot song tp t s).code = -1 ∨
    (1 ≤ (classifySlot song tp t s).code ∧ (classifySlot song tp t s).code ≤ 16) := by
  unfold classifySlot
  split
  · simp
  · split
    · next slot heq =>
      rcases hclip : slot.clip? with - | clip
      · dsimp only
        split_ifs <;> simp
      · dsimp only
        split_ifs with h1 h2 h3
        · have hb := progress_val_bounds clip.playing_position clip.length
          dsimp only
          omega
        · simp
        · simp
        · simp
    · simp

/-- An in-range cell never carries the non-existent code. -/
lemma classifySlot_code_ne_neg4 (song : SongS) (tp : Bool) (t s : Int)
    (hin : ¬ ((song.tracks.length : Int) ≤ t ∨ (song.scenes : Int) ≤ s)) :
    (classifySlot song tp t s).code ≠ -4 := by
  unfold classifySlot
  rw [if_neg hin]
  split
  · next slot heq =>
    rcases hclip : slot.clip? with - | clip
    · dsimp only
      split_ifs <;> simp
    · dsimp only
      split_ifs with h1 h2 h3
      · have hb := progress_val_bounds clip.playing_position clip.length
        dsimp only
        omega
      · simp
      · simp
      · simp
  · simp

/-- Code `-4` characterizes exactly the out-of-range cells. -/
lemma classifySlot_code_neg4_iff (song : SongS) (tp : Bool) (t s : Int) :
    ((classifySlot song tp t s).code = -4 ↔
      ((song.tracks.length : Int) ≤ t ∨ (song.scenes : Int) ≤ s)) := by
  by_cases hin : (song.tracks.length : Int) ≤ t ∨ (song.scenes : Int) ≤ s
  · simp only [hin, iff_true]
    unfold classifySlot
    rw [if_pos hin]
  · simp only [hin, iff_false]
    exact classifySlot_code_ne_neg4 song tp t s hin

/-- C4: each cell `i` of a produced snapshot (scene-major: scene `i / 8`,
track `i % 8`) is classified from the absolute slot
`(h + i % 8, v + i / 8)`: code `-4` exactly when that slot is outside the
session; for an existing slot with a clip, playing is decided before
triggered before the stopped cases; an existing slot without a clip (and a
stopped clip likewise) codes `-2` when the track has a playing or triggered
slot and `-3` otherwise; and every emitted code lies in
`{-4, -3, -2, -1} ∪ [1, 16]`. -/
theorem snapshot_classification (song : SongS) (h v : Int) (cells : List Cell)
    (hp : prepare_and_send_clip_info true h v song = some cells)
    (i : Nat) (hi : i < 32) :
    cells.length = 32 ∧
    ((cells.getD i ⟨"", 0, 0⟩).code = -4 ↔
      ((song.tracks.length : Int) ≤ h + ((i % 8 : Nat) : Int) ∨
       (song.scenes : Int) ≤ v + ((i / 8 : Nat) : Int))) ∧
    (∀ slot clip,
      slotAt song (h + ((i % 8 : Nat) : Int)) (v + ((i / 8 : Nat) : Int)) =
        some slot →
      slot.clip? = some clip →
      ¬ ((song.tracks.length : Int) ≤ h + ((i % 8 : Nat) : Int) ∨
         (song.scenes : Int) ≤ v + ((i / 8 : Nat) : Int)) →
      ((clip.is_playing = true →
        (cells.getD i ⟨"", 0, 0⟩).code =
          progress_val clip.playing_position clip.length) ∧
       (clip.is_playing = false → clip.is_triggered = true →
        (cells.getD i ⟨"", 0, 0⟩).code = -1) ∧
       (clip.is_playing = false → clip.is_triggered = false →
        (cells.getD i ⟨"", 0, 0⟩).code =
          if trackPlayingAt song (h + ((i % 8 : Nat) : Int)) then -2 else -3))) ∧
    (∀ slot,
      slotAt song (h + ((i % 8 : Nat) : Int)) (v + ((i / 8 : Nat) : Int)) =
        some slot →
      slot.clip? = none →
      ¬ ((song.tracks.length : Int) ≤ h + ((i % 8 : Nat) : Int) ∨
         (song.scenes : Int) ≤ v + ((i / 8 : Nat) : Int)) →
      (cells.getD i ⟨"", 0, 0⟩).code =
        if trackPlayingAt song (h + ((i % 8 : Nat) : Int)) then -2 else -3) ∧
    ((cells.getD i ⟨"", 0, 0⟩).code = -4 ∨ (cells.getD i ⟨"", 0, 0⟩).code = -3 ∨
     (cells.getD i ⟨"", 0, 0⟩).code = -2 ∨ (cells.getD i ⟨"", 0, 0⟩).code = -1 ∨
     (1 ≤ (cells.getD i ⟨"", 0, 0⟩).code ∧ (cells.getD i ⟨"", 0, 0⟩).code ≤ 16)) := by
  obtain ⟨-, hcells⟩ := prepare_eq_some h v song cells hp
  have hlen : cells.length = 32 := by rw [hcells]; exact range_flatMap_length _
  have hcell : cells.getD i ⟨"", 0, 0⟩ =
      classifySlot song (trackPlayingAt song (h + ((i % 8 : Nat) : Int)))
        (h + ((i % 8 : Nat) : Int)) (v + ((i / 8 : Nat) : Int)) := by
    rw [hcells]
    exact range_flatMap_getD
      (fun s t => classifySlot song (trackPlayingAt song (h + (t : Int)))
        (h + (t : Int)) (v + (s : Int))) _ i hi
  rw [hcell]
  refine ⟨hlen, ?_, ?_, ?_, ?_⟩
  · exact classifySlot_code_neg4_iff song _ _ _
  · intro slot clip hslot hclip hrange
    unfold classifySlot
    rw [if_neg hrange, hslot]
    dsimp only
    rw [hclip]
    dsimp only
    refine ⟨?_, ?_, ?_⟩
    · intro hplay; simp [hplay]
    · intro hnp htr; simp [hnp, htr]
    · intro hnp hnt
      simp only [hnp, hnt]
      split_ifs <;> simp_all
  · intro slot hslot hnone hrange
    unfold classifySlot
    rw [if_neg hrange, hslot]
    dsimp only
    rw [hnone]
    dsimp only
    split_ifs <;> simp_all
  · exact classifySlot_code_mem song _ _ _

/-- C4 witness: a window at `(2, 1)` over a 3-track, 0-scene session; the
snapshot exists, and cell 5 is the non-existent marker. -/
theorem snapshot_classification_witness :
    ((List.replicate 32 (⟨"X", 3276800, -4⟩ : Cell)).getD 5 ⟨"", 0, 0⟩).code = -4 :=
  (snapshot_classification ⟨List.replicate 3 ⟨[]⟩, 0⟩ 2 1
    (List.replicate 32 ⟨"X", 3276800, -4⟩) (by decide) 5 (by decide)).2.1.mpr
    (by decide)

/-- A key the role dispatch does not consume always triggers the clip at
`(key % 8, key // 8)`. -/
lemma on_key_change_plain (sm : ScrollMode) (ma : Bool) (k : Nat)
    (hplain : isPlainKey sm ma k = true) :
    on_key_change sm ma k = KeyCmd.triggerClip (k % 8) (k / 8) := by
  unfold isPlainKey at hplain
  cases sm <;> simp only [on_key_change] at hplain ⊢ <;>
    split_ifs at hplain ⊢ <;> simp_all

/-- C10: a plain clip key `k` sends `/trigger_clip` with
`track_offset = k % 8`, `scene_offset = k / 8`; the session resolves that
to the absolute slot `(h + k % 8, v + k / 8)`, and snapshot cell `k` is
classified from exactly that absolute slot — the press-to-slot mapping
inverts the snapshot cell-index mapping. -/
theorem press_maps_to_snapshot_slot (sm : ScrollMode) (ma : Bool) (k : Nat)
    (st : CSState) (song : SongS) (cells : List Cell)
    (hk : k < 32) (hplain : isPlainKey sm ma k = true)
    (hp : prepare_and_send_clip_info true st.h_offset st.v_offset song =
      some cells) :
    on_key_change sm ma k = KeyCmd.triggerClip (k % 8) (k / 8) ∧
    trigger_resolve st.h_offset st.v_offset (k % 8) (k / 8) =
      (st.h_offset + ((k % 8 : Nat) : Int), st.v_offset + ((k / 8 : Nat) : Int)) ∧
    cells.getD k ⟨"", 0, 0⟩ =
      classifySlot song
        (trackPlayingAt song (st.h_offset + ((k % 8 : Nat) : Int)))
        (st.h_offset + ((k % 8 : Nat) : Int))
        (st.v_offset + ((k / 8 : Nat) : Int)) := by
  refine ⟨on_key_change_plain sm ma k hplain, rfl, ?_⟩
  obtain ⟨-, hcells⟩ := prepare_eq_some _ _ song cells hp
  rw [hcells]
  exact range_flatMap_getD
    (fun s t => classifySlot song
      (trackPlayingAt song (st.h_offset + (t : Int)))
      (st.h_offset + (t : Int)) (st.v_offset + (s : Int))) _ k hk

/-- C10 witness: key 5 in the vertical layout over a concrete session. -/
theorem press_maps_to_snapshot_slot_witness :
    on_key_change ScrollMode.vertical false 5 =
      KeyCmd.triggerClip (5 % 8) (5 / 8) ∧
    trigger_resolve 2 1 (5 % 8) (5 / 8) =
      (2 + ((5 % 8 : Nat) : Int), 1 + ((5 / 8 : Nat) : Int)) ∧
    (List.replicate 32 (⟨"X", 3276800, -4⟩ : Cell)).getD 5 ⟨"", 0, 0⟩ =
      classifySlot ⟨List.replicate 3 ⟨[]⟩, 0⟩
        (trackPlayingAt ⟨List.replicate 3 ⟨[]⟩, 0⟩ (2 + ((5 % 8 : Nat) : Int)))
        (2 + ((5 % 8 : Nat) : Int)) (1 + ((5 / 8 : Nat) : Int)) :=
  press_maps_to_snapshot_slot .vertical false 5
    ⟨0, 2, 1, 0, true, false, -1, -1, false⟩
    ⟨List.replicate 3 ⟨[]⟩, 0⟩ (List.replicate 32 ⟨"X", 3276800, -4⟩)
    (by decide) (by decide) (by decide)

/-- C6 counterexample: the claim asserts every scheduled restore renders
the cache contents as of fire time.  Concretely: key 0 holds `("A", 255,
-3)` when the track-stopped restore is scheduled and `("B", 255, -3)` when
it fires; the restore renders `"A"`, not `"B"`, so its output is not the
fire-time render — the claimed equality
`run_track_stopped_restore c0 c1 k = run_track_stopped_restore c1 c1 k`
fails at this input. -/
theorem timed_restore_counterexample :
    run_track_stopped_restore
      (fun j => if j = 0 then some ("A", 255, (-3 : ℚ)) else none)
      (fun j => if j = 0 then some ("B", 255, (-3 : ℚ)) else none) 0 ≠
    run_track_stopped_restore
      (fun j => if j = 0 then some ("B", 255, (-3 : ℚ)) else none)
      (fun j => if j = 0 then some ("B", 255, (-3 : ℚ)) else none) 0 := by
  decide

/-- C6 (amended): the press-flash restore is last-write-wins — the timer
body re-reads the live state, so the render equals `restore_key_image` of
the fire-time state, whatever was cached at scheduling.  The track-stopped
restore, however, renders exactly the `(label, color, progress)` values
captured from the cache at scheduling time; a cache overwrite between
scheduling and firing is not reflected. -/
theorem timed_restore_write_semantics :
    (∀ (s0 s1 : HWState) (k : Nat),
      run_flash_restore s0 s1 k = restore_key_image s1 k) ∧
    (∀ (c0 c1 : Cache) (k : Nat) (e : Entry), c0 k = some e →
      run_track_stopped_restore c0 c1 k =
        { key := k, label := e.1, rgb := ableton_color_to_rgb e.2.1,
          progress := some e.2.2, background := none, flash := false }) := by
  refine ⟨fun _ _ _ => rfl, fun c0 c1 k e he => ?_⟩
  simp [run_track_stopped_restore, track_stopped_capture, he]

/-- C6 witness: the track-stopped restore fires against an emptied cache
yet still renders the captured entry. -/
theorem timed_restore_write_semantics_witness :
    run_track_stopped_restore
      (fun j => if j = 0 then some ("A", 255, (-3 : ℚ)) else none)
      (fun _ => none) 0 =
      { key := 0, label := "A", rgb := ableton_color_to_rgb 255,
        progress := some (-3), background := none, flash := false } :=
  timed_restore_write_semantics.2 _ _ 0 ("A", 255, (-3 : ℚ)) (by decide)

/-! ## Liveness invariant (C3) -/

/-- Per-window liveness invariant carried along a trace whose event times
stay below `T`: the never-heard sentinel implies offline, and an offline
flag with a real heartbeat means some monitor tick already saw the
heartbeat stale. -/
def LiveInv (T : ℚ) (s : HWState) : Prop :=
  (s.last_ablonline = 0 → s.ableton_offline = true) ∧
  (s.ableton_offline = true → 0 < s.last_ablonline → s.last_ablonline + 2 < T)

lemma clip_info_win_fields (now : ℚ) (cells : List OscVal) (s : HWState) :
    ((osc_clip_info_win now cells s).1).last_ablonline = now ∧
    ((osc_clip_info_win now cells s).1).ableton_offline = false :=
  ⟨rfl, rfl⟩

lemma ablonline_win_fields (now : ℚ) (deck : Bool) (s : HWState) :
    ((osc_ablonline_win now deck s).1).last_ablonline = now ∧
    ((osc_ablonline_win now deck s).1).ableton_offline = false := by
  simp only [osc_ablonline_win]
  split_ifs <;> exact ⟨rfl, rfl⟩

lemma structural_win_fields (sf deck : Bool) (s : HWState) :
    ((osc_structural_mismatch_win sf deck s).1).last_ablonline =
      s.last_ablonline ∧
    ((osc_structural_mismatch_win sf deck s).1).ableton_offline =
      s.ableton_offline := by
  simp only [osc_structural_mismatch_win]
  split_ifs <;> exact ⟨rfl, rfl⟩

lemma monitor_tick_last (now : ℚ) (s : HWState) :
    ((monitor_tick now s).1).last_ablonline = s.last_ablonline := by
  simp only [monitor_tick]
  split_ifs <;> rfl

/-- One event preserves the liveness invariant and updates the heartbeat
field exactly as `hbUpd` says. -/
lemma hwStep_live (T : ℚ) (s : HWState) (e : HWEvent)
    (h1 : 0 < eventTime e) (h2 : eventTime e ≤ T)
    (h3 : isDocClosing e = false) (hinv : LiveInv T s) :
    (hwStep s e).last_ablonline = hbUpd s.last_ablonline e ∧
    LiveInv T (hwStep s e) := by
  obtain ⟨hi1, hi2⟩ := hinv
  cases e with
  | clipInfo t cells =>
    obtain ⟨hl, ho⟩ := clip_info_win_fields t cells s
    simp only [eventTime] at h1
    simp only [hwStep, hbUpd]
    refine ⟨hl, ?_, ?_⟩
    · intro h0
      rw [hl] at h0
      exact absurd h0 (by intro h; rw [h] at h1; exact lt_irrefl 0 h1)
    · intro hofl
      rw [ho] at hofl
      exact absurd hofl (by simp)
  | ablonline t =>
    obtain ⟨hl, ho⟩ := ablonline_win_fields t true s
    simp only [eventTime] at h1
    simp only [hwStep, hbUpd]
    refine ⟨hl, ?_, ?_⟩
    · intro h0
      rw [hl] at h0
      exact absurd h0 (by intro h; rw [h] at h1; exact lt_irrefl 0 h1)
    · intro hofl
      rw [ho] at hofl
      exact absurd hofl (by simp)
  | structuralMismatch t sf =>
    obtain ⟨hl, ho⟩ := structural_win_fields sf true s
    simp only [hwStep, hbUpd]
    refine ⟨hl, ?_, ?_⟩
    · intro h0
      rw [hl] at h0
      rw [ho]
      exact hi1 h0
    · intro hofl hpos
      rw [ho] at hofl
      rw [hl] at hpos ⊢
      exact hi2 hofl hpos
  | trackStopped t ti wp =>
    exact ⟨rfl, hi1, hi2⟩
  | documentClosing t =>
    exact absurd h3 (by simp [isDocClosing])
  | tick t =>
    simp only [eventTime] at h1 h2
    simp only [hwStep, hbUpd, monitor_tick]
    split_ifs with hc ho
    · refine ⟨rfl, fun _ => rfl, ?_⟩
      intro _ _
      show s.last_ablonline + 2 < T
      linarith [hc.2]
    · refine ⟨rfl, hi1, ?_⟩
      intro hofl hpos
      exact hi2 hofl hpos
    · refine ⟨rfl, hi1, ?_⟩
      intro hofl hpos
      exact hi2 hofl hpos

/-- Folding a docClosing-free trace with times in `(0, T]` preserves the
liveness invariant and tracks `lastHBFrom`. -/
lemma runHW_live (T : ℚ) (es : List HWEvent) (s : HWState)
    (hev : ∀ e ∈ es, 0 < eventTime e ∧ eventTime e ≤ T ∧
      isDocClosing e = false)
    (hinv : LiveInv T s) :
    (runHW s es).last_ablonline = lastHBFrom s.last_ablonline es ∧
    LiveInv T (runHW s es) := by
  induction es generalizing s with
  | nil => exact ⟨rfl, hinv⟩
  | cons e es ih =>
    obtain ⟨h1, h2, h3⟩ := hev e (List.mem_cons_self e es)
    obtain ⟨hstep, hinv'⟩ := hwStep_live T s e h1 h2 h3 hinv
    obtain ⟨hrec, hinv''⟩ := ih (hwStep s e)
      (fun e' he' => hev e' (List.mem_cons_of_mem e he')) hinv'
    refine ⟨?_, hinv''⟩
    rw [runHW, List.foldl_cons, ← runHW, hrec, hstep]
    rfl

lemma lastHBFrom_pos (es : List HWEvent) (hb : ℚ)
    (hev : ∀ e ∈ es, 0 < eventTime e) (hhb : hb = 0 ∨ 0 < hb) :
    lastHBFrom hb es = 0 ∨ 0 < lastHBFrom hb es := by
  induction es generalizing hb with
  | nil => exact hhb
  | cons e es ih =>
    have h1 := hev e (List.mem_cons_self e es)
    have hhb' : hbUpd hb e = 0 ∨ 0 < hbUpd hb e := by
      cases e with
      | clipInfo t cells => exact Or.inr h1
      | ablonline t => exact Or.inr h1
      | structuralMismatch t sf => exact hhb
      | trackStopped t ti wp => exact hhb
      | documentClosing t => exact hhb
      | tick t => exact hhb
    exact ih (hbUpd hb e) (fun e' he' => hev e' (List.mem_cons_of_mem e he')) hhb'

/-- C3 (amended): only `/clip_info` and `/ablonline` update a window's
`lastHeartbeat` (and clear the offline flag); `/structural_mismatch` and
`/track_stopped` leave both the heartbeat and the offline flag unchanged,
and `/document_closing` resets the heartbeat to the never-heard sentinel.
Along any docClosing-free trace of messages and monitor ticks with
positive times bounded by `T`, the state after a final monitor tick at `T`
has `lastHeartbeat` equal to the last `/clip_info`-or-`/ablonline` time,
and is offline exactly when no such message ever arrived or its time is
more than the 2-second timeout before `T`. -/
theorem heartbeat_liveness_amended (es : List HWEvent) (T : ℚ)
    (hev : ∀ e ∈ es, 0 < eventTime e ∧ eventTime e ≤ T ∧
      isDocClosing e = false) :
    (runHW initHW (es ++ [HWEvent.tick T])).last_ablonline = lastHB es ∧
    ((runHW initHW (es ++ [HWEvent.tick T])).ableton_offline = true ↔
      (lastHB es = 0 ∨ lastHB es + 2 < T)) ∧
    (∀ (s : HWState) (t : ℚ) (sf : Bool),
      (hwStep s (.structuralMismatch t sf)).last_ablonline =
        s.last_ablonline ∧
      (hwStep s (.structuralMismatch t sf)).ableton_offline =
        s.ableton_offline) ∧
    (∀ (s : HWState) (t : ℚ) (ti : Nat) (wp : Bool),
      (hwStep s (.trackStopped t ti wp)).last_ablonline = s.last_ablonline ∧
      (hwStep s (.trackStopped t ti wp)).ableton_offline =
        s.ableton_offline) ∧
    (∀ (s : HWState) (t : ℚ),
      (hwStep s (.documentClosing t)).last_ablonline = 0) := by
  have hinv0 : LiveInv T initHW := by
    constructor
    · intro _; rfl
    · intro _ hpos
      simp only [initHW] at hpos
      exact absurd hpos (lt_irrefl 0)
  obtain ⟨hlast, hinv⟩ := runHW_live T es initHW hev hinv0
  have hsplit : runHW initHW (es ++ [HWEvent.tick T]) =
      hwStep (runHW initHW es) (HWEvent.tick T) := by
    rw [runHW, List.foldl_append]
    rfl
  have hbcases : lastHB es = 0 ∨ 0 < lastHB es :=
    lastHBFrom_pos es 0 (fun e he => (hev e he).1) (Or.inl rfl)
  have hlast' : (runHW initHW es).last_ablonline = lastHB es := hlast
  refine ⟨?_, ?_, ?_, ?_, ?_⟩
  · rw [hsplit]
    show ((monitor_tick T (runHW initHW es)).1).last_ablonline = lastHB es
    rw [monitor_tick_last, hlast']
  · rw [hsplit]
    show ((monitor_tick T (runHW initHW es)).1).ableton_offline = true ↔ _
    simp only [monitor_tick]
    rcases hbcases with hb0 | hbpos
    · rw [if_neg (by rw [hlast', hb0]; intro hcon; exact lt_irrefl 0 hcon.1)]
      have hofl : (runHW initHW es).ableton_offline = true :=
        hinv.1 (by rw [hlast', hb0])
      simp [hofl, hb0]
    · by_cases hstale : lastHB es + 2 < T
      · rw [if_pos ⟨by rw [hlast']; exact hbpos, by rw [hlast']; linarith⟩]
        split_ifs with ho
        · simp [hstale]
        · simp only [Bool.not_eq_false] at ho
          simp [ho, hstale]
      · have hcneg : ¬ (0 < (runHW initHW es).last_ablonline ∧
            2 < T - (runHW initHW es).last_ablonline) := by
          rw [hlast']
          intro hcon
          exact hstale (by linarith [hcon.2])
        rw [if_neg hcneg]
        have hne : ¬ lastHB es = 0 := by
          intro h
          rw [h] at hbpos
          exact lt_irrefl 0 hbpos
        have hoff : (runHW initHW es).ableton_offline = false := by
          cases hof : (runHW initHW es).ableton_offline
          · rfl
          · exact absurd (hinv.2 hof (by rw [hlast']; exact hbpos))
              (by rw [hlast']; exact hstale)
        simp [hoff, hstale, hne]
  · intro s t sf
    exact ⟨(structural_win_fields sf true s).1,
      (structural_win_fields sf true s).2⟩
  · intro s t ti wp
    exact ⟨rfl, rfl⟩
  · intro s t
    rfl

/-- C3 witness: a single `/ablonline` at time 1 followed by a monitor tick
at time 4 is marked offline (3 seconds stale beats the 2-second timeout). -/
theorem heartbeat_liveness_amended_witness :
    (runHW initHW ([HWEvent.ablonline 1] ++ [HWEvent.tick 4])).last_ablonline =
      lastHB [HWEvent.ablonline 1] ∧
    ((runHW initHW ([HWEvent.ablonline 1] ++ [HWEvent.tick 4])).ableton_offline
        = true ↔
      (lastHB [HWEvent.ablonline 1] = 0 ∨ lastHB [HWEvent.ablonline 1] + 2 < 4)) ∧
    (∀ (s : HWState) (t : ℚ) (sf : Bool),
      (hwStep s (.structuralMismatch t sf)).last_ablonline =
        s.last_ablonline ∧
      (hwStep s (.structuralMismatch t sf)).ableton_offline =
        s.ableton_offline) ∧
    (∀ (s : HWState) (t : ℚ) (ti : Nat) (wp : Bool),
      (hwStep s (.trackStopped t ti wp)).last_ablonline = s.last_ablonline ∧
      (hwStep s (.trackStopped t ti wp)).ableton_offline =
        s.ableton_offline) ∧
    (∀ (s : HWState) (t : ℚ),
      (hwStep s (.documentClosing t)).last_ablonline = 0) :=
  heartbeat_liveness_amended [HWEvent.ablonline 1] 4 (by decide)

/-- C3 counterexample: an inbound `/structural_mismatch` (and likewise
`/track_stopped`) at time 5 leaves `lastHeartbeat` at the never-heard
sentinel 0 — it does not update the heartbeat as the claim states. -/
theorem heartbeat_counterexample :
    (hwStep initHW (HWEvent.structuralMismatch 5 true)).last_ablonline = 0 ∧
    (hwStep initHW (HWEvent.trackStopped 5 2 true)).last_ablonline = 0 ∧
    ((0 : ℚ) ≠ 5) := by
  refine ⟨rfl, rfl, by norm_num⟩

/-! ## Per-key analysis of the `/clip_info` loop (C8) -/

/-- The renders one loop iteration adds for index `i`, as a function of the
key's cached value only. -/
def clip_delta (pressed : List Nat) (flash_until : Nat → Option ℚ) (now : ℚ)
    (cached : Option Entry) (i : Nat) (info : String) : List RenderCall :=
  if pressed.contains i || flashActive flash_until now i then []
  else
    match parseCell info with
    | some e => if cached = some e then [] else [renderForCell i e]
    | none => []

lemma renderForCell_key (i : Nat) (e : Entry) : (renderForCell i e).key = i := by
  simp only [renderForCell]
  split_ifs <;> rfl

lemma clip_step_cache_other (P : List Nat) (F : Nat → Option ℚ) (now : ℚ)
    (c : Cache) (r : List RenderCall) (i : Nat) (info : String) (k : Nat)
    (hne : i ≠ k) : ((clip_step P F now c r i info).1) k = c k := by
  unfold clip_step
  rcases hp : parseCell info with - | e <;> (try dsimp only) <;>
    split_ifs <;> simp [cacheSet, Ne.symm hne]

lemma clip_step_cache_self (P : List Nat) (F : Nat → Option ℚ) (now : ℚ)
    (c : Cache) (r : List RenderCall) (i : Nat) (info : String) :
    ((clip_step P F now c r i info).1) i =
      match parseCell info with
      | some e => some e
      | none => c i := by
  unfold clip_step
  rcases hp : parseCell info with - | e <;> (try dsimp only) <;>
    split_ifs <;> simp_all [cacheSet]

lemma clip_step_snd (P : List Nat) (F : Nat → Option ℚ) (now : ℚ)
    (c : Cache) (r : List RenderCall) (i : Nat) (info : String) :
    (clip_step P F now c r i info).2 =
      r ++ clip_delta P F now (c i) i info := by
  unfold clip_step clip_delta
  rcases hp : parseCell info with - | e <;> (try dsimp only) <;>
    split_ifs <;> simp

lemma clip_delta_keys (P : List Nat) (F : Nat → Option ℚ) (now : ℚ)
    (cached : Option Entry) (i : Nat) (info : String) :
    ∀ x ∈ clip_delta P F now cached i info, x.key = i := by
  unfold clip_delta
  rcases hp : parseCell info with - | e <;> (try dsimp only) <;>
    split_ifs <;> simp [renderForCell_key]

lemma clip_cells_loop_strings_ok (P : List Nat) (F : Nat → Option ℚ)
    (now : ℚ) (cells : List String) :
    ∀ (n : Nat) (c : Cache) (r : List RenderCall),
    (clip_cells_loop P F now (List.enumFrom n (cells.map OscVal.s)) c r).2.2 =
      false := by
  induction cells with
  | nil => intro n c r; rfl
  | cons x xs ih =>
    intro n c r
    show (clip_cells_loop P F now
      ((n, OscVal.s x) :: List.enumFrom (n + 1) (xs.map OscVal.s)) c r).2.2 =
      false
    simp only [clip_cells_loop]
    split_ifs with h32
    · exact ih (n + 1) _ _
    · exact ih (n + 1) c r

lemma clip_cells_loop_cache_lt (P : List Nat) (F : Nat → Option ℚ)
    (now : ℚ) (cells : List String) :
    ∀ (n : Nat) (c : Cache) (r : List RenderCall) (k : Nat), k < n →
    ((clip_cells_loop P F now (List.enumFrom n (cells.map OscVal.s)) c r).1) k =
      c k := by
  induction cells with
  | nil => intro n c r k _; rfl
  | cons x xs ih =>
    intro n c r k hk
    show ((clip_cells_loop P F now
      ((n, OscVal.s x) :: List.enumFrom (n + 1) (xs.map OscVal.s)) c r).1) k =
      c k
    simp only [clip_cells_loop]
    split_ifs with h32
    · rw [ih (n + 1) _ _ k (by omega)]
      exact clip_step_cache_other P F now c r n x k (by omega)
    · exact ih (n + 1) c r k (by omega)

lemma clip_cells_loop_cache_at (P : List Nat) (F : Nat → Option ℚ)
    (now : ℚ) (cells : List String) :
    ∀ (n : Nat) (c : Cache) (r : List RenderCall) (k : Nat),
      n ≤ k → k - n < cells.length → k < 32 →
    ((clip_cells_loop P F now (List.enumFrom n (cells.map OscVal.s)) c r).1) k =
      match parseCell (cells.getD (k - n) "") with
      | some e => some e
      | none => c k := by
  induction cells with
  | nil => intro n c r k _ h2 _; simp at h2
  | cons x xs ih =>
    intro n c r k h1 h2 h3
    simp only [List.length_cons] at h2
    show ((clip_cells_loop P F now
      ((n, OscVal.s x) :: List.enumFrom (n + 1) (xs.map OscVal.s)) c r).1) k = _
    simp only [clip_cells_loop]
    by_cases hkn : k = n
    · subst hkn
      rw [if_pos h3]
      try dsimp only
      rw [clip_cells_loop_cache_lt P F now xs (k + 1) _ _ k (by omega)]
      rw [clip_step_cache_self]
      have hgd : (x :: xs).getD (k - k) "" = x := by
        rw [show k - k = 0 from by omega]
        rfl
      rw [hgd]
    · have hlt : n < k := by omega
      rw [if_pos (by omega : n < 32)]
      try dsimp only
      rw [ih (n + 1) _ _ k (by omega) (by omega) h3]
      rw [clip_step_cache_other P F now c r n x k (by omega)]
      have hgd : (x :: xs).getD (k - n) "" = xs.getD (k - (n + 1)) "" := by
        rw [show k - n = (k - (n + 1)) + 1 from by omega]
        rfl
      rw [hgd]

lemma clip_cells_loop_renders_ge (P : List Nat) (F : Nat → Option ℚ)
    (now : ℚ) (cells : List String) :
    ∀ (n : Nat) (c : Cache) (r : List RenderCall),
    ∃ δ, (clip_cells_loop P F now (List.enumFrom n (cells.map OscVal.s))
        c r).2.1 = r ++ δ ∧ ∀ x ∈ δ, n ≤ x.key := by
  induction cells with
  | nil => intro n c r; exact ⟨[], by simp [clip_cells_loop], by simp⟩
  | cons x xs ih =>
    intro n c r
    show ∃ δ, (clip_cells_loop P F now
      ((n, OscVal.s x) :: List.enumFrom (n + 1) (xs.map OscVal.s)) c r).2.1 =
      r ++ δ ∧ ∀ x ∈ δ, n ≤ x.key
    simp only [clip_cells_loop]
    split_ifs with h32
    · obtain ⟨δ', hδ', hkeys'⟩ := ih (n + 1) (clip_step P F now c r n x).1
        (clip_step P F now c r n x).2
      refine ⟨clip_delta P F now (c n) n x ++ δ', ?_, ?_⟩
      · rw [hδ', clip_step_snd, List.append_assoc]
      · intro y hy
        rcases List.mem_append.mp hy with h | h
        · rw [clip_delta_keys P F now (c n) n x y h]
        · have := hkeys' y h
          omega
    · obtain ⟨δ', hδ', hkeys'⟩ := ih (n + 1) c r
      exact ⟨δ', hδ', fun y hy => by have := hkeys' y hy; omega⟩

lemma clip_cells_loop_renders_at (P : List Nat) (F : Nat → Option ℚ)
    (now : ℚ) (cells : List String) :
    ∀ (n : Nat) (c : Cache) (r : List RenderCall) (k : Nat),
      n ≤ k → k - n < cells.length → k < 32 →
    ((∃ y ∈ (clip_cells_loop P F now (List.enumFrom n (cells.map OscVal.s))
        c r).2.1, y.key = k) ↔
      ((∃ y ∈ r, y.key = k) ∨
        clip_delta P F now (c k) k (cells.getD (k - n) "") ≠ [])) := by
  induction cells with
  | nil => intro n c r k _ h2 _; simp at h2
  | cons x xs ih =>
    intro n c r k h1 h2 h3
    simp only [List.length_cons] at h2
    show (∃ y ∈ (clip_cells_loop P F now
      ((n, OscVal.s x) :: List.enumFrom (n + 1) (xs.map OscVal.s)) c r).2.1,
        y.key = k) ↔ _
    simp only [clip_cells_loop]
    by_cases hkn : k = n
    · subst hkn
      rw [if_pos h3]
      try dsimp only
      obtain ⟨δ', hδ', hkeys'⟩ := clip_cells_loop_renders_ge P F now xs (k + 1)
        (clip_step P F now c r k x).1 (clip_step P F now c r k x).2
      rw [hδ', clip_step_snd]
      have hgd : (x :: xs).getD (k - k) "" = x := by
        rw [show k - k = 0 from by omega]
        rfl
      rw [hgd]
      constructor
      · rintro ⟨y, hy, hyk⟩
        rcases List.mem_append.mp hy with h | h
        · rcases List.mem_append.mp h with h' | h'
          · exact Or.inl ⟨y, h', hyk⟩
          · exact Or.inr (by
              intro hemp
              rw [hemp] at h'
              exact absurd h' (List.not_mem_nil y))
        · have := hkeys' y h
          omega
      · rintro (⟨y, hy, hyk⟩ | hne)
        · exact ⟨y, List.mem_append_left _ (List.mem_append_left _ hy), hyk⟩
        · obtain ⟨y, hy⟩ := List.exists_mem_of_ne_nil _ hne
          exact ⟨y, List.mem_append_left _ (List.mem_append_right _ hy),
            clip_delta_keys P F now (c k) k x y hy⟩
    · have hlt : n < k := by omega
      rw [if_pos (by omega : n < 32)]
      try dsimp only
      rw [ih (n + 1) _ _ k (by omega) (by omega) h3]
      rw [clip_step_cache_other P F now c r n x k (by omega)]
      rw [clip_step_snd]
      have hgd : (x :: xs).getD (k - n) "" = xs.getD (k - (n + 1)) "" := by
        rw [show k - n = (k - (n + 1)) + 1 from by omega]
        rfl
      rw [hgd]
      refine or_congr ?_ Iff.rfl
      constructor
      · rintro ⟨y, hy, hyk⟩
        rcases List.mem_append.mp hy with h | h
        · exact ⟨y, h, hyk⟩
        · have := clip_delta_keys P F now (c n) n x y h
          omega
      · rintro ⟨y, hy, hyk⟩
        exact ⟨y, List.mem_append_left _ hy, hyk⟩

/-- C8: processing an inbound `/clip_info` snapshot, a key `k` that is held
or still inside its flash window gets its cache entry updated to the new
triple but no render call is made for it; a key neither held nor flashing
gets its cache entry updated and a render call is made for it exactly when
the new triple differs from the cached one. -/
theorem clip_info_render_suppression (s : HWState) (now : ℚ)
    (cells : List String) (k : Nat) (e : Entry)
    (hk32 : k < 32) (hkl : k < cells.length)
    (hparse : parseCell (cells.getD k "") = some e) :
    ((s.pressed_keys.contains k = true ∨
        flashActive s.flash_until now k = true) →
      ((osc_clip_info_win now (cells.map OscVal.s) s).1.key_states k = some e ∧
       ∀ y ∈ (osc_clip_info_win now (cells.map OscVal.s) s).2.1, y.key ≠ k)) ∧
    (s.pressed_keys.contains k = false →
      flashActive s.flash_until now k = false →
      ((osc_clip_info_win now (cells.map OscVal.s) s).1.key_states k = some e ∧
       ((∃ y ∈ (osc_clip_info_win now (cells.map OscVal.s) s).2.1, y.key = k) ↔
        s.key_states k ≠ some e))) := by
  have hwin1 : (osc_clip_info_win now (cells.map OscVal.s) s).1.key_states =
      (clip_cells_loop s.pressed_keys s.flash_until now
        (List.enumFrom 0 (cells.map OscVal.s)) s.key_states []).1 := rfl
  have hwin2 : (osc_clip_info_win now (cells.map OscVal.s) s).2.1 =
      (clip_cells_loop s.pressed_keys s.flash_until now
        (List.enumFrom 0 (cells.map OscVal.s)) s.key_states []).2.1 := rfl
  have hcache := clip_cells_loop_cache_at s.pressed_keys s.flash_until now
    cells 0 s.key_states [] k (by omega) (by omega) hk32
  have hrend := clip_cells_loop_renders_at s.pressed_keys s.flash_until now
    cells 0 s.key_states [] k (by omega) (by omega) hk32
  have hk0 : k - 0 = k := by omega
  rw [hk0] at hcache hrend
  rw [hparse] at hcache
  constructor
  · intro hsup
    refine ⟨by rw [hwin1, hcache], ?_⟩
    intro y hy hyk
    rw [hwin2] at hy
    have : (∃ y ∈ (clip_cells_loop s.pressed_keys s.flash_until now
        (List.enumFrom 0 (cells.map OscVal.s)) s.key_states []).2.1,
        y.key = k) := ⟨y, hy, hyk⟩
    have hdelta := hrend.mp this
    rcases hdelta with h | h
    · simp at h
    · apply h
      unfold clip_delta
      have hb : (s.pressed_keys.contains k || flashActive s.flash_until now k)
          = true := by
        rcases hsup with h' | h' <;> rw [h'] <;> simp
      rw [if_pos hb]
  · intro hp hf
    refine ⟨by rw [hwin1, hcache], ?_⟩
    rw [hwin2, hrend]
    have hb : (s.pressed_keys.contains k || flashActive s.flash_until now k)
        = false := by rw [hp, hf]; rfl
    have hdelta : clip_delta s.pressed_keys s.flash_until now
        (s.key_states k) k (cells.getD k "") =
        if s.key_states k = some e then [] else [renderForCell k e] := by
      unfold clip_delta
      rw [if_neg (by rw [hb]; simp), hparse]
    constructor
    · rintro (h | h)
      · simp at h
      · rw [hdelta] at h
        intro hceq
        rw [if_pos hceq] at h
        exact h rfl
    · intro hne
      right
      rw [hdelta, if_neg hne]
      simp

/-- C8 witness: key 0 is held, so the snapshot updates its cache silently;
for the free key 1 a changed triple renders. -/
theorem clip_info_render_suppression_witness :
    ((osc_clip_info_win 1 (["X|1|9"].map OscVal.s)
        { initHW with pressed_keys := [0] }).1.key_states 0 =
      some ("X", 1, (9 : ℚ)) ∧
     ∀ y ∈ (osc_clip_info_win 1 (["X|1|9"].map OscVal.s)
        { initHW with pressed_keys := [0] }).2.1, y.key ≠ 0) :=
  (clip_info_render_suppression { initHW with pressed_keys := [0] } 1
    ["X|1|9"] 0 ("X", 1, 9) (by decide) (by decide) (by decide)).1
    (Or.inl (by decide))

/-! ## Aggregator routing lemmas (C9) -/

lemma find?_append_none {α : Type} (l : List α) (f : α → Bool) (x : α)
    (hnone : l.find? f = none) (hx : f x = true) :
    (l ++ [x]).find? f = some x := by
  induction l with
  | nil => simp [List.find?, hx]
  | cons y ys ih =>
    by_cases hy : f y
    · rw [List.find?_cons_of_pos _ hy] at hnone
      exact absurd hnone (by simp)
    · rw [List.find?_cons_of_neg _ (by simp [hy])] at hnone
      rw [List.cons_append, List.find?_cons_of_neg _ (by simp [hy])]
      exact ih hnone

lemma lookupState_setState_self (a : AggState) (o : Int) (s : HWState)
    (hsome : (lookupState a o).isSome = true) :
    lookupState (setState a o s) o = some s := by
  obtain ⟨ds, dk⟩ := a
  unfold lookupState setState at *
  dsimp only at *
  induction ds with
  | nil => simp [List.find?] at hsome
  | cons y ys ih =>
    by_cases hy : y.1 = o
    · rw [List.map_cons, if_pos hy]
      rw [List.find?_cons_of_pos _ (by simp)]
      rfl
    · rw [List.map_cons, if_neg hy]
      rw [List.find?_cons_of_neg _ (by simp [hy])]
      rw [List.find?_cons_of_neg _ (by simp [hy])] at hsome
      exact ih hsome

lemma lookupState_init_self (a : AggState) (o : Int) :
    lookupState (init_cs_state a o) o =
      some ((lookupState a o).getD initHW) := by
  obtain ⟨ds, dk⟩ := a
  unfold init_cs_state
  by_cases hs : (lookupState ⟨ds, dk⟩ o).isSome
  · rw [if_pos hs]
    obtain ⟨x, hx⟩ := Option.isSome_iff_exists.mp hs
    rw [hx]
    rfl
  · rw [if_neg hs]
    unfold lookupState at *
    dsimp only at *
    have hnone : ds.find? (fun p => p.1 = o) = none := by
      cases hf : ds.find? (fun p => p.1 = o)
      · rfl
      · exact absurd (by rw [hf]; rfl) hs
    rw [find?_append_none ds _ (o, initHW) hnone (by simp)]
    rw [hnone]
    rfl

/-- C9 counterexample: the aggregator holds no state records and only
order 0 has a deck; an `/ablonline` carrying the unconfigured order 5 is
not silently dropped — the handler creates a state record for order 5 and
stamps its heartbeat, because `get_cs_state` runs before the deck check. -/
theorem unconfigured_order_counterexample :
    (osc_ablonline_agg 10 [OscVal.i 5] ⟨[], [0]⟩).raised = false ∧
    ((lookupState (osc_ablonline_agg 10 [OscVal.i 5] ⟨[], [0]⟩).agg 5).map
      (fun st => st.last_ablonline)) = some 10 ∧
    (osc_ablonline_agg 10 [OscVal.i 5] ⟨[], [0]⟩).agg.deck_states.length = 1 :=
  ⟨rfl, rfl, rfl⟩

/-- C9 (amended): `/clip_info` messages with fewer than two arguments, or
for an order with no configured deck, are silently dropped before any
state record is touched; `/structural_mismatch` (< 2 args) and
`/track_stopped` (< 3 args) are dropped on argument count; but an
`/ablonline` for an unconfigured order is not dropped — it creates that
order's state record and stamps its heartbeat (no render occurs since no
deck is attached), and a non-integer order argument makes the handler
raise (the OSC server loop contains the exception). -/
theorem message_routing_amended :
    (∀ (now : ℚ) (args : List OscVal) (a : AggState), args.length < 2 →
      osc_clip_info_agg now args a = ⟨a, [], false⟩) ∧
    (∀ (now : ℚ) (o : Int) (rest : List OscVal) (a : AggState),
      a.order_to_deck.contains o = false →
      osc_clip_info_agg now (OscVal.i o :: rest) a = ⟨a, [], false⟩) ∧
    (∀ (now : ℚ) (o : Int) (a : AggState),
      a.order_to_deck.contains o = false →
      ((lookupState (osc_ablonline_agg now [OscVal.i o] a).agg o).map
        (fun st => st.last_ablonline) = some now ∧
       (osc_ablonline_agg now [OscVal.i o] a).renders = [] ∧
       (osc_ablonline_agg now [OscVal.i o] a).raised = false)) ∧
    (∀ (now : ℚ) (a : AggState),
      (osc_ablonline_agg now [OscVal.s "x"] a).raised = true) ∧
    (∀ (args : List OscVal) (a : AggState), args.length < 2 →
      osc_structural_mismatch_agg args a = ⟨a, [], false⟩) ∧
    (∀ (args : List OscVal) (a : AggState), args.length < 3 →
      osc_track_stopped_agg args a = ⟨a, [], false⟩) := by
  refine ⟨?_, ?_, ?_, ?_, ?_, ?_⟩
  · intro now args a h
    unfold osc_clip_info_agg
    rw [if_pos h]
  · intro now o rest a hdeck
    unfold osc_clip_info_agg
    by_cases hlen : (OscVal.i o :: rest).length < 2
    · rw [if_pos hlen]
    · rw [if_neg hlen]
      have hg : (OscVal.i o :: rest).getD 0 (OscVal.i 0) = OscVal.i o := rfl
      rw [hg]
      have hpy : pyIntOf (OscVal.i o) = some o := rfl
      rw [hpy]
      dsimp only
      rw [if_pos hdeck]
  · intro now o a hdeck
    have hinit := lookupState_init_self a o
    have hsome : (lookupState (init_cs_state a o) o).isSome = true := by
      rw [hinit]
      rfl
    have hres : osc_ablonline_agg now [OscVal.i o] a =
        ⟨setState (init_cs_state a o) o
          ({ (lookupState (init_cs_state a o) o).getD initHW with
              last_ablonline := now, ableton_offline := false }),
         [], false⟩ := by
      unfold osc_ablonline_agg get_cs_state osc_ablonline_win
      dsimp only [pyIntOf]
      rw [hdeck]
      rw [if_neg (by simp)]
    refine ⟨?_, by rw [hres], by rw [hres]⟩
    rw [hres]
    dsimp only
    rw [lookupState_setState_self (init_cs_state a o) o _ hsome]
    rfl
  · intro now a
    have hx : pyIntOf (OscVal.s "x") = none := by decide
    unfold osc_ablonline_agg
    dsimp only
    rw [hx]
  · intro args a h
    unfold osc_structural_mismatch_agg
    rw [if_pos h]
  · intro args a h
    unfold osc_track_stopped_agg
    rw [if_pos h]

/-- C9 witness: order 4 is unconfigured (only order 1 has a deck); its
`/ablonline` creates and stamps a record while rendering nothing. -/
theorem message_routing_amended_witness :
    (lookupState (osc_ablonline_agg 7 [OscVal.i 4] ⟨[], [1]⟩).agg 4).map
      (fun st => st.last_ablonline) = some 7 ∧
    (osc_ablonline_agg 7 [OscVal.i 4] ⟨[], [1]⟩).renders = [] ∧
    (osc_ablonline_agg 7 [OscVal.i 4] ⟨[], [1]⟩).raised = false :=
  message_routing_amended.2.2.1 7 4 ⟨[], [1]⟩ (by decide)

end ClipDeck
